import Mathlib

/-!
Shallow embedding of `src/main.py` (a Slack DM command-line tool) and
verification of its specification claims.

Strings are modelled through their underlying character lists so that every
definition evaluates by kernel reduction.  Python `str.strip` is modelled by
`pystrip`, `str.split "."` by `splitDot`, and the user-id regular expression
`^[UW][A-Z0-9]+$` (Python `re.match` semantics, where `$` also matches just
before a final newline) by `matchUserId`.
-/

namespace Slack

/-- Characters stripped by Python `str.strip()` (the ASCII whitespace set). -/
def isPyWs (c : Char) : Bool :=
  c = ' ' || c = '\t' || c = '\n' || c = '\r' || c = '\x0b' || c = '\x0c'

/-- Strip leading and trailing whitespace from a character list. -/
def pystripList (cs : List Char) : List Char :=
  ((cs.dropWhile isPyWs).reverse.dropWhile isPyWs).reverse

/-- Python `str.strip()`. -/
def pystrip (s : String) : String :=
  String.mk (pystripList s.data)

/-- Boolean list-prefix test (Python `str.startswith`). -/
def isPrefixOfList : List Char → List Char → Bool
  | [], _ => true
  | _ :: _, [] => false
  | a :: as, b :: bs => a = b && isPrefixOfList as bs

/-- Python `s.startswith(p)`. -/
def pyStartsWith (s p : String) : Bool :=
  isPrefixOfList p.data s.data

/-- Numeric value of a digit run (Python `int(digits)` on a digit string). -/
def natOfDigits (ds : List Char) : Nat :=
  ds.foldl (fun n c => n * 10 + (c.toNat - '0'.toNat)) 0

/-- Python `s.split(".")` on the character list of `s`. -/
def splitDot : List Char → List (List Char)
  | [] => [[]]
  | c :: rest =>
    match splitDot rest with
    | seg :: segs =>
      if c = '.' then [] :: seg :: segs else (c :: seg) :: segs
    | [] => [[c]]

/-!  ### Version comparison (`_version_tuple`, `_is_version_newer`)  -/

/-- The per-segment loop of `_version_tuple`: take the leading digit run of
each dot-separated segment; a segment whose digit run is empty executes
`break`, ending the whole loop. -/
def collectParts : List (List Char) → List Nat
  | [] => []
  | seg :: rest =>
    let digits := seg.takeWhile Char.isDigit
    if digits = [] then [] else natOfDigits digits :: collectParts rest

/-- `if version.startswith("v"): version = version[1:]`. -/
def dropLeadingV (l : List Char) : List Char :=
  match l with
  | c :: rest => if c = 'v' then rest else c :: rest
  | [] => []

/-- `_version_tuple` from `src/main.py`. -/
def version_tuple (version : String) : List Nat :=
  if version = "" then [0]
  else
    let v := dropLeadingV (pystripList version.data)
    let parts := collectParts (splitDot v)
    if parts = [] then [0] else parts

/-- Python tuple comparison `>` on natural-number tuples (lexicographic;
a longer tuple with an equal prefix is greater). -/
def tupleGt : List Nat → List Nat → Bool
  | [], [] => false
  | [], _ :: _ => false
  | _ :: _, [] => true
  | a :: as, b :: bs =>
    if b < a then true else if a < b then false else tupleGt as bs

/-- `_is_version_newer` from `src/main.py`: right-pad the shorter tuple with
zeros and compare strictly. -/
def is_version_newer (candidate current : String) : Bool :=
  let cand := version_tuple candidate
  let curr := version_tuple current
  let len := max cand.length curr.length
  tupleGt (cand ++ List.replicate (len - cand.length) 0)
    (curr ++ List.replicate (len - curr.length) 0)

/-!  ### JSON values and the config store  -/

/-- JSON values.  Objects are association lists of string keys (Python dicts
preserve insertion order and have pairwise-distinct keys). -/
inductive Json : Type
  | null : Json
  | bool : Bool → Json
  | num : Int → Json
  | str : String → Json
  | arr : List Json → Json
  | obj : List (String × Json) → Json

/-- Python dict lookup `d.get(k)` on an association list (first match). -/
def jlookup {α : Type} (k : String) : List (String × α) → Option α
  | [] => none
  | (k', v) :: rest => if k' = k then some v else jlookup k rest

/-- Python dict assignment `d[k] = v`: overwrite in place if the key exists,
else append. -/
def dictInsert {α : Type} (k : String) (v : α) : List (String × α) → List (String × α)
  | [] => [(k, v)]
  | (k', v') :: rest =>
    if k' = k then (k, v) :: rest else (k', v') :: dictInsert k v rest

/-- The key list of an association list. -/
def keysOf {α : Type} (l : List (String × α)) : List String :=
  l.map Prod.fst

/-- Whether a computation ended in the fatal-error path (`SystemExit`). -/
def isError {ε α : Type} : Except ε α → Bool
  | .error _ => true
  | .ok _ => false

/-- What the config file on disk looks like to `load_config`. -/
inductive FileState : Type
  | absent : FileState
  | unreadable : FileState
  | invalidJson : FileState
  | content : Json → FileState

/-- `load_config` from `src/main.py`: absent file yields `{}`, an `OSError` or
`JSONDecodeError` is fatal, a `null` payload yields `{}`, a non-object payload
is fatal, and an object payload is returned as parsed. -/
def load_config : FileState → Except String Json
  | .absent => .ok (.obj [])
  | .unreadable => .error "Unable to read config"
  | .invalidJson => .error "Unable to read config"
  | .content j =>
    match j with
    | .null => .ok (.obj [])
    | .obj fields => .ok (.obj fields)
    | _ => .error "Config file must contain a JSON object."

/-- The fields of a JSON object (`{}` for non-objects; `load_config` only ever
produces objects). -/
def objFields : Json → List (String × Json)
  | .obj fields => fields
  | _ => []

/-!  ### `normalize_user_labels`  -/

/-- The loop body of `normalize_user_labels`: iterate over the entries of
`user_labels` in order, keeping an entry exactly when its value is a string
that is non-empty after stripping (JSON object keys are always strings, so the
source's `isinstance(key, str)` test is identically true here); the kept value
is stripped, and insertion uses Python dict assignment. -/
def cleanStep (cleaned : List (String × String)) (kv : String × Json) :
    List (String × String) :=
  match kv.2 with
  | .str s => if pystrip s ≠ "" then dictInsert kv.1 (pystrip s) cleaned else cleaned
  | _ => cleaned

/-- The cleaning loop of `normalize_user_labels`. -/
def cleanLabels (entries : List (String × Json)) : List (String × String) :=
  entries.foldl cleanStep []

/-- `normalize_user_labels` from `src/main.py`, over the fields of the config
object: `payload.get("user_labels", {})`; `None` yields `{}`; a non-dict value
is fatal; otherwise the cleaning loop runs. -/
def normalize_user_labels (payload : List (String × Json)) :
    Except String (List (String × String)) :=
  match jlookup "user_labels" payload with
  | none => .ok (cleanLabels [])
  | some .null => .ok []
  | some (.obj entries) => .ok (cleanLabels entries)
  | some _ => .error "user_labels must be a JSON object."

/-!  ### `save_config`: serialization sorts keys at every level

`save_config` writes `json.dump(payload, ..., sort_keys=True)`; the content a
later `json.load` reads back is therefore the payload with every object's
entries reordered by key (Python compares strings by code point,
lexicographically).  `sortJson` is that canonicalization. -/

/-- Lexicographic code-point order on character lists (Python `str` `<=`). -/
def listCharLe : List Char → List Char → Bool
  | [], _ => true
  | _ :: _, [] => false
  | a :: as, b :: bs =>
    if a = b then listCharLe as bs else decide (a.toNat < b.toNat)

/-- Order on object entries: compare keys only. -/
def keyLe (p q : String × Json) : Prop :=
  listCharLe p.1.data q.1.data = true

instance : DecidableRel keyLe := fun p q => by
  unfold keyLe; infer_instance

mutual

/-- The content written by `save_config`: every object's entries sorted by
key, recursively. -/
def sortJson : Json → Json
  | .null => .null
  | .bool b => .bool b
  | .num n => .num n
  | .str s => .str s
  | .arr xs => .arr (sortArr xs)
  | .obj fields => .obj (List.insertionSort keyLe (sortFields fields))

/-- Canonicalize each element of an array. -/
def sortArr : List Json → List Json
  | [] => []
  | x :: xs => sortJson x :: sortArr xs

/-- Canonicalize each value of an object's entry list (keys unchanged). -/
def sortFields : List (String × Json) → List (String × Json)
  | [] => []
  | (k, v) :: rest => (k, sortJson v) :: sortFields rest

end

/-!  ### Token resolution  -/

/-- `get_env` from `src/main.py`: an unset or empty (falsy) variable reads as
absent. -/
def get_env (value : Option String) : Option String :=
  match value with
  | some s => if s = "" then none else some s
  | none => none

/-- `resolve_token` from `src/main.py`, as a function of the `SLACK_TOKEN`
environment value. -/
def resolve_token (slackTokenEnv : Option String) : Except String String :=
  match get_env slackTokenEnv with
  | none => .error "Missing SLACK_TOKEN env var."
  | some token =>
    if pyStartsWith token "xoxb-" then
      .error "Bot tokens are not supported. Use a user token."
    else if pyStartsWith token "xoxp-" || pyStartsWith token "xoxc-" then
      .ok token
    else
      .error "SLACK_TOKEN must be a user token (xoxp- or xoxc-)."

/-!  ### Recipient resolution  -/

/-- Characters admitted by the class `[A-Z0-9]`. -/
def isIdChar (c : Char) : Bool :=
  ('A' ≤ c && c ≤ 'Z') || ('0' ≤ c && c ≤ '9')

/-- Python `re.match(r"^[UW][A-Z0-9]+$", s)`: a `U` or `W`, then one or more
`[A-Z0-9]`, then the end of the string (or a single final newline, which `$`
also accepts). -/
def matchUserId (s : String) : Bool :=
  match s.data with
  | [] => false
  | c :: rest =>
    let run := rest.takeWhile isIdChar
    let tail := rest.drop run.length
    (c = 'U' || c = 'W') && run ≠ [] && (tail = [] || tail = ['\n'])

/-- Result of the `users.lookupByEmail` request as `resolve_user_id` consumes
it: a fatal Slack-API error, or the optional `user.id` of the response. -/
def EmailOracle : Type := String → Except String (Option String)

/-- `resolve_user_id` from `src/main.py`.  Returns the resolution outcome
together with the list of emails actually sent to `users.lookupByEmail`, so
that "no network call" is visible in the model. -/
def resolve_user_id (recipient : String) (labels : List (String × String))
    (oracle : EmailOracle) : Except String String × List String :=
  match jlookup recipient labels with
  | some uid => (.ok uid, [])
  | none =>
    if matchUserId recipient then (.ok recipient, [])
    else if recipient ≠ "" && recipient.data.contains '@' then
      match oracle recipient with
      | .error e => (.error e, [recipient])
      | .ok none => (.error "No user found for that email.", [recipient])
      | .ok (some uid) => (.ok uid, [recipient])
    else
      (.error "Recipient must be a user ID, email, or saved label.", [])

/-!  ### `_run_upgrade`  -/

/-- Observable behaviour of the two spawned processes: whether each binary
exists, the exit codes, and what `curl` wrote to its error stream. -/
structure UpgradeEnv : Type where
  curlFound : Bool
  bashFound : Bool
  curlRc : Int
  bashRc : Int
  curlStderr : String

/-- `_run_upgrade` from `src/main.py`: the returned code plus the messages
written to the error stream. -/
def run_upgrade (env : UpgradeEnv) : Int × List String :=
  if !env.curlFound then (1, ["Upgrade requires curl"])
  else if !env.bashFound then (1, ["Upgrade requires bash"])
  else if env.curlRc ≠ 0 then
    (env.curlRc, if env.curlStderr ≠ "" then [env.curlStderr] else [])
  else
    (env.bashRc, [])

/-!  ### Message composer  -/

/-- `" ".join(texts)`. -/
def joinSpace : List String → String
  | [] => ""
  | [s] => s
  | s :: rest => s ++ " " ++ joinSpace rest

/-- `read_from_editor` from `src/main.py`, as a function of whether the editor
binary exists and of the temp file's content after the editor exits: a missing
editor is fatal, the content is read back and stripped, and empty stripped
content is fatal. -/
def read_from_editor (editorFound : Bool) (editorName fileContent : String) :
    Except String String :=
  if !editorFound then .error ("Editor not found: " ++ editorName)
  else
    let text := pystrip fileContent
    if text = "" then .error "No content; cancelled." else .ok text

/-!  ### `auth_test` and the CLI driver  -/

/-- `auth_test` from `src/main.py`, as a function of the `auth.test` response:
a request failure is fatal, and so is a truthy `bot_id`. -/
def auth_test_model (resp : Except String Bool) : Except String Unit :=
  match resp with
  | .error e => .error e
  | .ok true => .error "Token belongs to a bot. Use a user token."
  | .ok false => .ok ()

/-- Parsed command-line arguments (the fields argparse produces). -/
structure Args : Type where
  recipient : Option String
  text : List String
  edit : Bool
  addUser : Option (String × String)
  version : Bool
  upgrade : Bool

/-- Python truthiness of an optional string argument (absent or empty reads
as false). -/
def optTruthy : Option String → Bool
  | none => false
  | some s => s ≠ ""

/-- The world `main` runs against: environment variables, the config file,
the editor, and the responses of every remote endpoint. -/
structure Env : Type where
  slackToken : Option String
  configFile : FileState
  editorFound : Bool
  editorName : String
  editorRaw : String
  latest : Option String
  upgrade : UpgradeEnv
  currentVersion : String
  auth : Except String Bool
  email : EmailOracle
  openDm : String → Except String (Option String)
  postMessage : String → String → Except String (Option String)

/-- Observable side effects of one invocation, in order. -/
inductive Event : Type
  | editorInvoked : Event
  | tokenRead : Event
  | netCall : String → Event
deriving DecidableEq

/-- How one invocation of `main` ends. -/
inductive Outcome : Type
  | printedVersion : Outcome
  | printedHelp : Outcome
  | exitCode : Int → Outcome
  | savedLabel : String → Json → Outcome
  | sent : String → String → Option String → Outcome
  | fatal : String → Outcome

/-- An in-memory label mapping as a JSON object. -/
def labelsJson (labels : List (String × String)) : Json :=
  .obj (labels.map (fun kv => (kv.1, .str kv.2)))

/-- The `users.lookupByEmail` calls of a resolution, as trace events. -/
def emailEvents (calls : List String) : List Event :=
  calls.map (fun _ => Event.netCall "users.lookupByEmail")

/-- The send tail of `main`: `send_dm` via `open_dm` and `chat.postMessage`. -/
def sendDmRun (env : Env) (uid text : String) (evs : List Event) :
    Outcome × List Event :=
  match env.openDm uid with
  | .error e => (.fatal e, evs ++ [.netCall "conversations.open"])
  | .ok none =>
    (.fatal "Unable to open DM channel.", evs ++ [.netCall "conversations.open"])
  | .ok (some channelId) =>
    match env.postMessage channelId text with
    | .error e =>
      (.fatal e, evs ++ [.netCall "conversations.open", .netCall "chat.postMessage"])
    | .ok ts =>
      (.sent uid channelId ts,
        evs ++ [.netCall "conversations.open", .netCall "chat.postMessage"])

/-- `main` from `src/main.py`: the dispatch over version / upgrade /
add-user / send, with the outcome and the ordered trace of observable
effects. -/
def mainRun (args : Args) (env : Env) : Outcome × List Event :=
  if args.version then (.printedVersion, [])
  else if args.upgrade then
    if optTruthy args.recipient || args.text ≠ [] || args.edit || args.addUser.isSome then
      (.fatal "Use -u by itself to upgrade.", [])
    else
      match env.latest with
      | none => (.exitCode (run_upgrade env.upgrade).1, [])
      | some latest =>
        if env.currentVersion ≠ "" && env.currentVersion ≠ "0.0.0"
            && !is_version_newer latest env.currentVersion then
          (.exitCode 0, [])
        else
          (.exitCode (run_upgrade env.upgrade).1, [])
  else
    match load_config env.configFile with
    | .error e => (.fatal e, [])
    | .ok config =>
      match normalize_user_labels (objFields config) with
      | .error e => (.fatal e, [])
      | .ok userLabels =>
        match args.addUser with
        | some lv =>
          if optTruthy args.recipient || args.text ≠ [] || args.edit then
            (.fatal "Use --add-user by itself.", [])
          else
            let label := pystrip lv.1
            let value := pystrip lv.2
            if label = "" then (.fatal "Label cannot be empty.", [])
            else if value = "" then (.fatal "User ID or email cannot be empty.", [])
            else if matchUserId value then
              (.savedLabel label
                  (sortJson (.obj (dictInsert "user_labels"
                    (labelsJson (dictInsert label value userLabels))
                    (objFields config)))),
                [])
            else if value.data.contains '@' then
              match resolve_token env.slackToken with
              | .error e => (.fatal e, [.tokenRead])
              | .ok _ =>
                match auth_test_model env.auth with
                | .error e => (.fatal e, [.tokenRead, .netCall "auth.test"])
                | .ok _ =>
                  match resolve_user_id value [] env.email with
                  | (.error e, calls) =>
                    (.fatal e, [.tokenRead, .netCall "auth.test"] ++ emailEvents calls)
                  | (.ok uid, calls) =>
                    (.savedLabel label
                        (sortJson (.obj (dictInsert "user_labels"
                          (labelsJson (dictInsert label uid userLabels))
                          (objFields config)))),
                      [.tokenRead, .netCall "auth.test"] ++ emailEvents calls)
            else
              (.fatal "Value must be a user ID or email.", [])
        | none =>
          if args.edit && args.text ≠ [] then
            (.fatal "Use either -e or provide text, not both.", [])
          else
            let composed : Except String String × List Event :=
              if args.edit then
                (read_from_editor env.editorFound env.editorName env.editorRaw,
                  [.editorInvoked])
              else
                (.ok (pystrip (joinSpace args.text)), [])
            match composed with
            | (.error e, evs) => (.fatal e, evs)
            | (.ok text, evs) =>
              if !optTruthy args.recipient then (.printedHelp, evs)
              else if text = "" then (.printedHelp, evs)
              else
                match resolve_token env.slackToken with
                | .error e => (.fatal e, evs ++ [.tokenRead])
                | .ok _ =>
                  match auth_test_model env.auth with
                  | .error e => (.fatal e, evs ++ [.tokenRead, .netCall "auth.test"])
                  | .ok _ =>
                    match resolve_user_id ((args.recipient).getD "") userLabels env.email with
                    | (.error e, calls) =>
                      (.fatal e,
                        evs ++ [.tokenRead, .netCall "auth.test"] ++ emailEvents calls)
                    | (.ok uid, calls) =>
                      sendDmRun env uid text
                        (evs ++ [.tokenRead, .netCall "auth.test"] ++ emailEvents calls)

/-!  ### Spec-side formulations used to state amended claims  -/

/-- Amended description of the cleaning loop: keep exactly the entries whose
value is a string that is non-empty after stripping, strip the kept value,
and leave keys untouched (keys are not validated). -/
def specCleanLabels (entries : List (String × Json)) : List (String × String) :=
  entries.filterMap (fun kv =>
    match kv.2 with
    | .str s => if pystrip s ≠ "" then some (kv.1, pystrip s) else none
    | _ => none)

/-- Amended description of `_version_tuple`: strip the string, drop one
leading `v`, take each dot-separated component's leading digit run, truncate
the component list at the first component whose digit run is empty, and fall
back to `[0]` for the empty string or an empty component list. -/
def specVersionTuple (version : String) : List Nat :=
  if version = "" then [0]
  else
    let v := pystripList version.data
    let v := if isPrefixOfList ['v'] v then v.drop 1 else v
    let parts :=
      (((splitDot v).map (fun seg => seg.takeWhile Char.isDigit)).takeWhile
        (fun d => !d.isEmpty)).map natOfDigits
    if parts = [] then [0] else parts

/-- The config mutation performed by the add-label path (`main`, lines
389-391): replace the `user_labels` field with the normalized mapping plus
the new entry, leaving every other field of the object alone. -/
def addLabelFields (fields : List (String × Json)) (lbl uid : String) :
    Except String (List (String × Json)) :=
  match normalize_user_labels fields with
  | .error e => .error e
  | .ok labels =>
    .ok (dictInsert "user_labels" (labelsJson (dictInsert lbl uid labels)) fields)

/-- Field lookup up to canonical key order: two objects agree on a field's
content, key order aside, exactly when `canonLookup` agrees on it. -/
def canonLookup (k : String) (l : List (String × Json)) : Option Json :=
  (jlookup k l).map sortJson

/-!  ### Supporting lemmas  -/

theorem char_toNat_inj {a b : Char} (h : a.toNat = b.toNat) : a = b :=
  Char.ofNat_toNat a ▸ Char.ofNat_toNat b ▸ congrArg Char.ofNat h

theorem listCharLe_total : ∀ as bs : List Char,
    listCharLe as bs = true ∨ listCharLe bs as = true
  | [], _ => Or.inl rfl
  | _ :: _, [] => Or.inr rfl
  | a :: as, b :: bs => by
    by_cases h : a = b
    · subst h
      simpa [listCharLe] using listCharLe_total as bs
    · rcases Nat.lt_trichotomy a.toNat b.toNat with hlt | heq | hgt
      · exact Or.inl (by simp [listCharLe, h, hlt])
      · exact absurd (char_toNat_inj heq) h
      · exact Or.inr (by simp [listCharLe, Ne.symm h, hgt])

theorem listCharLe_trans : ∀ as bs cs : List Char,
    listCharLe as bs = true → listCharLe bs cs = true → listCharLe as cs = true
  | [], _, _, _, _ => rfl
  | _ :: _, [], _, h₁, _ => by simp [listCharLe] at h₁
  | _ :: _, _ :: _, [], _, h₂ => by simp [listCharLe] at h₂
  | a :: as, b :: bs, c :: cs, h₁, h₂ => by
    by_cases hab : a = b
    · subst hab
      by_cases hac : a = c
      · subst hac
        simp only [listCharLe, if_pos rfl] at h₁ h₂ ⊢
        exact listCharLe_trans as bs cs h₁ h₂
      · simp only [listCharLe, if_pos rfl] at h₁
        simpa [listCharLe, hac] using h₂
    · by_cases hbc : b = c
      · subst hbc
        simpa [listCharLe, hab] using h₁
      · simp only [listCharLe, if_neg hab] at h₁
        simp only [listCharLe, if_neg hbc] at h₂
        have hlt : a.toNat < c.toNat :=
          Nat.lt_trans (of_decide_eq_true h₁) (of_decide_eq_true h₂)
        have hac : a ≠ c := fun he => by
          rw [he] at h₁
          exact absurd (Nat.lt_trans (of_decide_eq_true h₁) (of_decide_eq_true h₂))
            (Nat.lt_irrefl _)
        simp [listCharLe, hac, hlt]

instance : IsTotal (String × Json) keyLe :=
  ⟨fun p q => listCharLe_total p.1.data q.1.data⟩

instance : IsTrans (String × Json) keyLe :=
  ⟨fun p q r => listCharLe_trans p.1.data q.1.data r.1.data⟩

theorem jlookup_perm {α : Type} {l l' : List (String × α)} (h : l.Perm l')
    (hnodup : (keysOf l).Nodup) (k : String) : jlookup k l = jlookup k l' := by
  induction h with
  | nil => rfl
  | cons x _ ih =>
    obtain ⟨k', v⟩ := x
    simp only [jlookup]
    split
    · rfl
    · exact ih (by simpa [keysOf] using hnodup.of_cons)
  | swap x y l =>
    obtain ⟨k₁, v₁⟩ := x
    obtain ⟨k₂, v₂⟩ := y
    have hne : k₂ ≠ k₁ := by
      simp only [keysOf, List.map_cons, List.nodup_cons, List.mem_cons] at hnodup
      exact fun he => hnodup.1 (Or.inl he)
    simp only [jlookup]
    by_cases h₁ : k₁ = k <;> by_cases h₂ : k₂ = k
    · exact absurd (h₂.trans h₁.symm) hne
    · simp [h₁, h₂]
    · simp [h₁, h₂]
    · simp [h₁, h₂]
  | trans h₁ h₂ ih₁ ih₂ =>
    rename_i l₁ l₂ l₃
    have hmid : (keysOf l₂).Nodup := by
      have := (h₁.map Prod.fst).nodup_iff.mp (by simpa [keysOf] using hnodup)
      simpa [keysOf] using this
    exact (ih₁ hnodup).trans (ih₂ hmid)

theorem sortFields_eq_map (l : List (String × Json)) :
    sortFields l = l.map (fun kv => (kv.1, sortJson kv.2)) := by
  induction l with
  | nil => rfl
  | cons kv rest ih =>
    obtain ⟨k, v⟩ := kv
    simp [sortFields, ih]

theorem keysOf_sortFields (l : List (String × Json)) :
    keysOf (sortFields l) = keysOf l := by
  rw [sortFields_eq_map]
  simp [keysOf, Function.comp]

theorem jlookup_sortFields (k : String) (l : List (String × Json)) :
    jlookup k (sortFields l) = (jlookup k l).map sortJson := by
  induction l with
  | nil => rfl
  | cons kv rest ih =>
    obtain ⟨k', v⟩ := kv
    simp only [sortFields, jlookup]
    split <;> simp [ih]

theorem sortFields_insertionSort (l : List (String × Json)) :
    sortFields (List.insertionSort keyLe l) = List.insertionSort keyLe (sortFields l) := by
  rw [sortFields_eq_map, sortFields_eq_map]
  exact List.map_insertionSort keyLe keyLe _ l (fun a _ b _ => Iff.rfl)

mutual

theorem sortJson_idem : ∀ j, sortJson (sortJson j) = sortJson j
  | .null => rfl
  | .bool _ => rfl
  | .num _ => rfl
  | .str _ => rfl
  | .arr xs => by
    simp only [sortJson]
    rw [sortArr_idem xs]
  | .obj fs => by
    simp only [sortJson]
    rw [sortFields_insertionSort, sortFields_idem fs,
      List.Sorted.insertionSort_eq (List.sorted_insertionSort keyLe (sortFields fs))]

theorem sortArr_idem : ∀ xs, sortArr (sortArr xs) = sortArr xs
  | [] => rfl
  | x :: xs => by
    simp only [sortArr]
    rw [sortJson_idem x, sortArr_idem xs]

theorem sortFields_idem : ∀ fs, sortFields (sortFields fs) = sortFields fs
  | [] => rfl
  | (k, v) :: fs => by
    simp only [sortFields]
    rw [sortJson_idem v, sortFields_idem fs]

end

theorem jlookup_dictInsert {α : Type} (k k' : String) (v : α) :
    ∀ l : List (String × α),
      jlookup k (dictInsert k' v l) = if k' = k then some v else jlookup k l
  | [] => by simp [dictInsert, jlookup]
  | (a, b) :: rest => by
    by_cases ha : a = k'
    · subst ha
      by_cases hk : a = k
      · subst hk
        simp [dictInsert, jlookup]
      · simp [dictInsert, jlookup, hk]
    · by_cases hk : a = k
      · subst hk
        have hk' : ¬(k' = a) := fun h => ha h.symm
        simp [dictInsert, jlookup, ha, hk']
      · simp [dictInsert, jlookup, ha, hk, jlookup_dictInsert k k' v rest]

theorem dictInsert_cons_self {α : Type} (k : String) (v b : α)
    (rest : List (String × α)) : dictInsert k v ((k, b) :: rest) = (k, v) :: rest := by
  simp [dictInsert]

theorem dictInsert_cons_ne {α : Type} {a k : String} (h : ¬(a = k)) (v b : α)
    (rest : List (String × α)) :
    dictInsert k v ((a, b) :: rest) = (a, b) :: dictInsert k v rest := by
  simp [dictInsert, h]

theorem mem_keysOf_dictInsert {α : Type} {x k : String} {v : α} :
    ∀ {l : List (String × α)}, x ∈ keysOf (dictInsert k v l) → x = k ∨ x ∈ keysOf l
  | [], h => Or.inl (by simpa [dictInsert, keysOf] using h)
  | (a, b) :: rest, h => by
    by_cases ha : a = k
    · subst ha
      rw [dictInsert_cons_self] at h
      simp only [keysOf, List.map_cons, List.mem_cons] at h ⊢
      exact h.imp_right Or.inr
    · rw [dictInsert_cons_ne ha] at h
      simp only [keysOf, List.map_cons, List.mem_cons] at h ⊢
      rcases h with hx | hmem
      · exact Or.inr (Or.inl hx)
      · rcases mem_keysOf_dictInsert (show x ∈ keysOf (dictInsert k v rest) from hmem)
          with he | hm
        · exact Or.inl he
        · exact Or.inr (Or.inr hm)

theorem keysOf_dictInsert_nodup {α : Type} (k : String) (v : α) :
    ∀ {l : List (String × α)}, (keysOf l).Nodup → (keysOf (dictInsert k v l)).Nodup
  | [], _ => by simp [dictInsert, keysOf]
  | (a, b) :: rest, h => by
    simp only [keysOf, List.map_cons, List.nodup_cons] at h
    by_cases ha : a = k
    · subst ha
      rw [dictInsert_cons_self]
      simp only [keysOf, List.map_cons, List.nodup_cons]
      exact h
    · rw [dictInsert_cons_ne ha]
      simp only [keysOf, List.map_cons, List.nodup_cons]
      refine ⟨fun hmem => ?_, keysOf_dictInsert_nodup k v h.2⟩
      rcases mem_keysOf_dictInsert (show a ∈ keysOf (dictInsert k v rest) from hmem)
        with he | hm
      · exact ha he
      · exact h.1 hm

theorem dictInsert_append {α : Type} (k : String) (v : α) :
    ∀ {l : List (String × α)}, k ∉ keysOf l → dictInsert k v l = l ++ [(k, v)]
  | [], _ => rfl
  | (a, b) :: rest, h => by
    have hk : ¬(k = a) ∧ k ∉ keysOf rest := by
      simpa [keysOf] using h
    rw [dictInsert_cons_ne (fun he => hk.1 he.symm), dictInsert_append k v hk.2]
    simp

theorem foldl_cleanStep :
    ∀ (entries : List (String × Json)) (acc : List (String × String)),
      (keysOf entries).Nodup → (∀ x ∈ keysOf entries, x ∉ keysOf acc) →
      entries.foldl cleanStep acc = acc ++ specCleanLabels entries
  | [], acc, _, _ => by simp [specCleanLabels]
  | (k, v) :: rest, acc, hnodup, hdisj => by
    have hknodup : (keysOf rest).Nodup := by
      simpa [keysOf] using (by simpa [keysOf] using hnodup : _ ∧ _).2
    have hkmem : k ∉ keysOf rest := by
      have := (by simpa [keysOf] using hnodup : k ∉ List.map Prod.fst rest ∧ _).1
      simpa [keysOf] using this
    have hkacc : k ∉ keysOf acc := hdisj k (by simp [keysOf])
    have hdisjrest : ∀ x ∈ keysOf rest, x ∉ keysOf acc :=
      fun x hx => hdisj x (by simp [keysOf] at hx ⊢; exact Or.inr hx)
    match v with
    | .str s =>
      by_cases hs : pystrip s ≠ ""
      · have hstep : cleanStep acc (k, .str s) = acc ++ [(k, pystrip s)] := by
          simp only [cleanStep, if_pos hs]
          exact dictInsert_append k (pystrip s) hkacc
        rw [List.foldl_cons, hstep,
          foldl_cleanStep rest (acc ++ [(k, pystrip s)]) hknodup
            (fun x hx => by
              simp only [keysOf, List.map_append, List.map_cons, List.map_nil,
                List.mem_append, List.mem_singleton]
              rintro (hacc | hxk)
              · exact hdisjrest x hx (by simpa [keysOf] using hacc)
              · exact hkmem (hxk ▸ hx))]
        simp [specCleanLabels, hs]
      · rw [List.foldl_cons,
          show cleanStep acc (k, .str s) = acc from by simp [cleanStep, hs],
          foldl_cleanStep rest acc hknodup hdisjrest]
        simp only [specCleanLabels, List.filterMap_cons]
        simp [hs]
    | .null =>
      rw [List.foldl_cons, show cleanStep acc (k, .null) = acc from rfl,
        foldl_cleanStep rest acc hknodup hdisjrest]
      simp [specCleanLabels]
    | .bool c =>
      rw [List.foldl_cons, show cleanStep acc (k, .bool c) = acc from rfl,
        foldl_cleanStep rest acc hknodup hdisjrest]
      simp [specCleanLabels]
    | .num n =>
      rw [List.foldl_cons, show cleanStep acc (k, .num n) = acc from rfl,
        foldl_cleanStep rest acc hknodup hdisjrest]
      simp [specCleanLabels]
    | .arr xs =>
      rw [List.foldl_cons, show cleanStep acc (k, .arr xs) = acc from rfl,
        foldl_cleanStep rest acc hknodup hdisjrest]
      simp [specCleanLabels]
    | .obj fs =>
      rw [List.foldl_cons, show cleanStep acc (k, .obj fs) = acc from rfl,
        foldl_cleanStep rest acc hknodup hdisjrest]
      simp [specCleanLabels]

theorem cleanLabels_eq_spec (entries : List (String × Json))
    (h : (keysOf entries).Nodup) : cleanLabels entries = specCleanLabels entries := by
  simpa using foldl_cleanStep entries [] h (by simp [keysOf])

theorem dropLeadingV_eq (l : List Char) :
    dropLeadingV l = if isPrefixOfList ['v'] l then l.drop 1 else l := by
  match l with
  | [] => rfl
  | c :: rest =>
    by_cases h : c = 'v'
    · subst h
      simp [dropLeadingV, isPrefixOfList]
    · simp [dropLeadingV, isPrefixOfList, h, Ne.symm h]

theorem collectParts_eq_spec : ∀ segs : List (List Char),
    collectParts segs =
      ((segs.map (fun seg => seg.takeWhile Char.isDigit)).takeWhile
        (fun d => !d.isEmpty)).map natOfDigits
  | [] => rfl
  | seg :: rest => by
    simp only [collectParts, List.map_cons, List.takeWhile_cons]
    by_cases h : seg.takeWhile Char.isDigit = []
    · simp [h]
    · simp [h, List.isEmpty_eq_true, collectParts_eq_spec rest]

theorem version_tuple_eq_spec (v : String) : version_tuple v = specVersionTuple v := by
  unfold version_tuple specVersionTuple
  by_cases h : v = ""
  · simp [h]
  · simp only [if_neg h, dropLeadingV_eq, collectParts_eq_spec]

theorem tupleGt_iff_lex : ∀ a b : List Nat, a.length = b.length →
    (tupleGt a b = true ↔ List.Lex (· < ·) b a)
  | [], [], _ => ⟨fun h => by simp [tupleGt] at h, fun h => nomatch h⟩
  | [], _ :: _, h => by simp at h
  | _ :: _, [], h => by simp at h
  | a :: as, b :: bs, h => by
    have hlen : as.length = bs.length := by simpa using h
    simp only [tupleGt]
    by_cases hba : b < a
    · simp only [if_pos hba]
      exact ⟨fun _ => List.Lex.rel hba, fun _ => by simp⟩
    · rw [if_neg hba]
      by_cases hab : a < b
      · rw [if_pos hab]
        constructor
        · intro hh
          exact absurd hh (by simp)
        · intro hlex
          cases hlex with
          | rel hr => exact absurd hr hba
          | cons ht => exact absurd hab (Nat.lt_irrefl a)
      · have heq : a = b := Nat.le_antisymm (Nat.not_lt.mp hba) (Nat.not_lt.mp hab)
        subst heq
        rw [if_neg hab]
        constructor
        · intro hh
          exact List.Lex.cons ((tupleGt_iff_lex as bs hlen).mp hh)
        · intro hlex
          cases hlex with
          | rel hr => exact absurd hr (Nat.lt_irrefl a)
          | cons ht => exact (tupleGt_iff_lex as bs hlen).mpr ht

theorem isPrefixOfList_eq_of_length : ∀ p q cs : List Char, p.length = q.length →
    isPrefixOfList p cs = true → isPrefixOfList q cs = true → p = q
  | [], [], _, _, _, _ => rfl
  | [], _ :: _, _, hlen, _, _ => by simp at hlen
  | _ :: _, [], _, hlen, _, _ => by simp at hlen
  | a :: as, b :: bs, cs, hlen, hp, hq => by
    cases cs with
    | nil => simp [isPrefixOfList] at hp
    | cons c cs' =>
      simp only [isPrefixOfList, Bool.and_eq_true, decide_eq_true_eq] at hp hq
      rw [hp.1, hq.1,
        isPrefixOfList_eq_of_length as bs cs' (by simpa using hlen) hp.2 hq.2]

theorem pyStartsWith_ne_empty {t p : String} (h : pyStartsWith t p = true)
    (hp : p.data ≠ []) : t ≠ "" := by
  intro he
  subst he
  unfold pyStartsWith at h
  cases hd : p.data with
  | nil => exact hp hd
  | cons c cs =>
    rw [hd] at h
    simp [isPrefixOfList] at h

theorem resolve_token_some (s : String) (hs : s ≠ "") :
    resolve_token (some s) =
      (if pyStartsWith s "xoxb-" then
        .error "Bot tokens are not supported. Use a user token."
      else if pyStartsWith s "xoxp-" || pyStartsWith s "xoxc-" then .ok s
      else .error "SLACK_TOKEN must be a user token (xoxp- or xoxc-).") := by
  unfold resolve_token get_env
  simp [hs]

/-!  ### Claim theorems  -/

/-- C5: `is_newer("v1.2.0", "1.1.9")` is true; `is_newer("1.2", "1.2.0")` is
false; `is_newer("", "1.0.0")` is false. -/
theorem c5_is_newer_examples :
    is_version_newer "v1.2.0" "1.1.9" = true ∧
    is_version_newer "1.2" "1.2.0" = false ∧
    is_version_newer "" "1.0.0" = false :=
  ⟨rfl, rfl, rfl⟩

/-- C2 counterexample: the claim says a non-digit character only terminates
the digit run of its own component, so that `"1.x.2"` parses to components
`(1, 0, 2)` and compares above `"1.0.1"`.  In the code, the component `"x"`
has an empty digit run and executes `break`, so `"1.x.2"` parses to `(1,)`,
which padded is `(1, 0, 0) < (1, 0, 1)`. -/
theorem c2_counterexample :
    version_tuple "1.x.2" = [1] ∧
    version_tuple "1.x.2" ≠ [1, 0, 2] ∧
    is_version_newer "1.x.2" "1.0.1" = false :=
  ⟨rfl, by decide, rfl⟩

/-- C2 amended: version comparison strips the string, drops one leading `v`
(only `v`, no other marker), extracts the leading digit run of each
dot-separated component but truncates the component list at the first
component whose digit run is empty (that component and all later ones are
dropped), right-pads the shorter tuple with zeros, and declares the candidate
newer iff its padded tuple is lexicographically strictly greater. -/
theorem c2_version_comparison (candidate current : String) :
    version_tuple candidate = specVersionTuple candidate ∧
    (is_version_newer candidate current = true ↔
      List.Lex (· < ·)
        (version_tuple current ++
          List.replicate
            (max (version_tuple candidate).length (version_tuple current).length
              - (version_tuple current).length) 0)
        (version_tuple candidate ++
          List.replicate
            (max (version_tuple candidate).length (version_tuple current).length
              - (version_tuple candidate).length) 0)) := by
  refine ⟨version_tuple_eq_spec candidate, ?_⟩
  unfold is_version_newer
  apply tupleGt_iff_lex
  simp only [List.length_append, List.length_replicate]
  omega

/-- Witness for C2: the characterization evaluated at `"2.1"` vs `"1.9"`. -/
theorem c2_version_comparison_witness :
    version_tuple "2.1" = specVersionTuple "2.1" ∧
    List.Lex (· < ·)
      (version_tuple "1.9" ++
        List.replicate
          (max (version_tuple "2.1").length (version_tuple "1.9").length
            - (version_tuple "1.9").length) 0)
      (version_tuple "2.1" ++
        List.replicate
          (max (version_tuple "2.1").length (version_tuple "1.9").length
            - (version_tuple "2.1").length) 0) :=
  ⟨(c2_version_comparison "2.1" "1.9").1,
    (c2_version_comparison "2.1" "1.9").2.mp rfl⟩

/-- C1 counterexample: the claim says no entry with an empty or
whitespace-only key survives normalization; in the code the key is only
checked to be a string, so `{"": "U123"}` survives unchanged. -/
theorem c1_counterexample :
    normalize_user_labels [("user_labels", Json.obj [("", Json.str "U123")])] =
      .ok [("", "U123")] := rfl

/-- C1 amended: `normalize_user_labels` returns exactly the entries whose
value is a string that is non-empty after trimming, with the value trimmed;
keys are not validated beyond being strings (which JSON guarantees), so empty
or whitespace-only keys survive.  The example
`{"a": "  ", "b": 3, "c": "U123"}` still normalizes to `{"c": "U123"}`. -/
theorem c1_normalize_labels (payload entries : List (String × Json))
    (hfind : jlookup "user_labels" payload = some (.obj entries))
    (hnodup : (keysOf entries).Nodup) :
    normalize_user_labels payload = .ok (specCleanLabels entries) ∧
    normalize_user_labels
        [("user_labels",
          Json.obj [("a", Json.str "  "), ("b", Json.num 3), ("c", Json.str "U123")])] =
      .ok [("c", "U123")] := by
  constructor
  · unfold normalize_user_labels
    rw [hfind]
    show Except.ok (cleanLabels entries) = _
    rw [cleanLabels_eq_spec entries hnodup]
  · rfl

/-- Witness for C1: a payload whose `user_labels` object carries a
whitespace-only key, a dropped non-string value, and a kept entry. -/
theorem c1_normalize_labels_witness :
    jlookup "user_labels"
        [("user_labels", Json.obj [(" ", Json.str " U9 "), ("b", Json.num 3)])] =
      some (.obj [(" ", Json.str " U9 "), ("b", Json.num 3)]) ∧
    (keysOf [(" ", Json.str " U9 "), ("b", Json.num 3)]).Nodup ∧
    normalize_user_labels
        [("user_labels", Json.obj [(" ", Json.str " U9 "), ("b", Json.num 3)])] =
      .ok (specCleanLabels [(" ", Json.str " U9 "), ("b", Json.num 3)]) :=
  ⟨rfl, by decide,
    (c1_normalize_labels
      [("user_labels", Json.obj [(" ", Json.str " U9 "), ("b", Json.num 3)])]
      [(" ", Json.str " U9 "), ("b", Json.num 3)] (by rfl) (by decide)).1⟩

/-- C3 counterexample: the claim says a `user_labels` value of `null` is
fatal; the code maps `None` to the empty mapping instead. -/
theorem c3_counterexample :
    normalize_user_labels [("user_labels", Json.null)] = .ok [] := rfl

/-- C3 amended: when `user_labels` is present, a value that is neither an
object nor `null` is fatal, while `null` is treated as the empty mapping. -/
theorem c3_user_labels_guard (payload : List (String × Json)) (v : Json)
    (hfind : jlookup "user_labels" payload = some v) :
    (v = .null → normalize_user_labels payload = .ok []) ∧
    (v ≠ .null → (∀ entries, v ≠ .obj entries) →
      normalize_user_labels payload = .error "user_labels must be a JSON object.") := by
  constructor
  · rintro rfl
    unfold normalize_user_labels
    rw [hfind]
  · intro hnull hobj
    unfold normalize_user_labels
    rw [hfind]
    cases v with
    | null => exact absurd rfl hnull
    | obj es => exact absurd rfl (hobj es)
    | bool b => rfl
    | num n => rfl
    | str s => rfl
    | arr xs => rfl

/-- Witness for C3: a string-valued `user_labels` field is fatal. -/
theorem c3_user_labels_guard_witness :
    jlookup "user_labels" [("user_labels", Json.str "zzz")] = some (.str "zzz") ∧
    normalize_user_labels [("user_labels", Json.str "zzz")] =
      .error "user_labels must be a JSON object." :=
  ⟨rfl,
    (c3_user_labels_guard [("user_labels", Json.str "zzz")] (.str "zzz") (by rfl)).2
      (fun h => Json.noConfusion h) (fun _ h => Json.noConfusion h)⟩

/-- C4: recipient resolution tries an exact label-key match first (even when
the key matches the user-ID pattern), then returns pattern-matching strings
unchanged with no network call, then performs an email lookup for strings
containing `@`, and otherwise fails naming the three accepted forms. -/
theorem c4_resolve_user_id (recipient uid : String)
    (labels : List (String × String)) (oracle : EmailOracle) :
    (jlookup recipient labels = some uid →
      resolve_user_id recipient labels oracle = (.ok uid, [])) ∧
    (jlookup recipient labels = none → matchUserId recipient = true →
      resolve_user_id recipient labels oracle = (.ok recipient, [])) ∧
    (jlookup recipient labels = none → matchUserId recipient = false →
      recipient.data.contains '@' = true →
      (resolve_user_id recipient labels oracle).2 = [recipient]) ∧
    (jlookup recipient labels = none → matchUserId recipient = false →
      recipient.data.contains '@' = false →
      resolve_user_id recipient labels oracle =
        (.error "Recipient must be a user ID, email, or saved label.", [])) := by
  refine ⟨?_, ?_, ?_, ?_⟩
  · intro h
    unfold resolve_user_id
    rw [h]
  · intro h hm
    unfold resolve_user_id
    rw [h]
    simp [hm]
  · intro h hm hat
    have hmem : '@' ∈ recipient.data := by simpa using hat
    have hne : recipient ≠ "" := by
      intro he
      rw [he] at hmem
      simp at hmem
    unfold resolve_user_id
    rw [h]
    simp only [hm, Bool.false_eq_true, if_false]
    rw [if_pos (by simp [hne, hmem])]
    cases horacle : oracle recipient with
    | error e => simp [horacle]
    | ok o => cases o <;> simp [horacle]
  · intro h hm hat
    have hmem : ¬('@' ∈ recipient.data) := by simpa using hat
    unfold resolve_user_id
    rw [h]
    simp only [hm, Bool.false_eq_true, if_false]
    rw [if_neg (by simp [hmem])]

/-- Witness for C4: one concrete run of each of the four branches; the label
key `"U1A"` itself matches the user-ID pattern and still resolves through the
mapping. -/
theorem c4_resolve_user_id_witness :
    jlookup "U1A" [("U1A", "U999")] = some "U999" ∧
    resolve_user_id "U1A" [("U1A", "U999")] (fun _ => .ok none) = (.ok "U999", []) ∧
    resolve_user_id "U2B" [] (fun _ => .ok none) = (.ok "U2B", []) ∧
    (resolve_user_id "a@b" [] (fun _ => .ok none)).2 = ["a@b"] ∧
    resolve_user_id "bob" [] (fun _ => .ok none) =
      (.error "Recipient must be a user ID, email, or saved label.", []) :=
  ⟨rfl,
    (c4_resolve_user_id "U1A" "U999" [("U1A", "U999")] (fun _ => .ok none)).1 rfl,
    (c4_resolve_user_id "U2B" "" [] (fun _ => .ok none)).2.1 rfl rfl,
    (c4_resolve_user_id "a@b" "" [] (fun _ => .ok none)).2.2.1 rfl rfl rfl,
    (c4_resolve_user_id "bob" "" [] (fun _ => .ok none)).2.2.2 rfl rfl rfl⟩

/-- C7: config loading returns the empty object for an absent file and for a
`null` payload, returns object payloads as parsed, and fails exactly for
unreadable files, invalid JSON, and top-level values that are neither `null`
nor an object. -/
theorem c7_load_config (fs : FileState) (fields : List (String × Json)) :
    load_config .absent = .ok (.obj []) ∧
    load_config (.content .null) = .ok (.obj []) ∧
    load_config (.content (.obj fields)) = .ok (.obj fields) ∧
    (isError (load_config fs) = true ↔
      (fs = .unreadable ∨ fs = .invalidJson ∨
        ∃ v, fs = .content v ∧ v ≠ .null ∧ ∀ gs, v ≠ .obj gs)) := by
  refine ⟨rfl, rfl, rfl, ?_⟩
  constructor
  · intro hmsg
    cases fs with
    | absent => simp [load_config, isError] at hmsg
    | unreadable => exact Or.inl rfl
    | invalidJson => exact Or.inr (Or.inl rfl)
    | content v =>
      cases v with
      | null => simp [load_config, isError] at hmsg
      | obj gs => simp [load_config, isError] at hmsg
      | bool b =>
        exact Or.inr (Or.inr ⟨.bool b, rfl, fun h => Json.noConfusion h,
          fun _gs h => Json.noConfusion h⟩)
      | num n =>
        exact Or.inr (Or.inr ⟨.num n, rfl, fun h => Json.noConfusion h,
          fun _gs h => Json.noConfusion h⟩)
      | str s =>
        exact Or.inr (Or.inr ⟨.str s, rfl, fun h => Json.noConfusion h,
          fun _gs h => Json.noConfusion h⟩)
      | arr xs =>
        exact Or.inr (Or.inr ⟨.arr xs, rfl, fun h => Json.noConfusion h,
          fun _gs h => Json.noConfusion h⟩)
  · rintro (rfl | rfl | ⟨v, rfl, hnull, hobj⟩)
    · rfl
    · rfl
    · cases v with
      | null => exact absurd rfl hnull
      | obj gs => exact absurd rfl (hobj gs)
      | bool b => rfl
      | num n => rfl
      | str s => rfl
      | arr xs => rfl

/-- Witness for C7: a string-payload config file makes loading fail. -/
theorem c7_load_config_witness :
    isError (load_config (.content (.str "x"))) = true ∧
    load_config .absent = .ok (.obj []) :=
  ⟨(c7_load_config (.content (.str "x")) []).2.2.2.mpr
      (Or.inr (Or.inr ⟨.str "x", rfl, fun h => Json.noConfusion h,
        fun _gs h => Json.noConfusion h⟩)),
    (c7_load_config .absent []).1⟩

/-- C9: the upgrade runner returns the shell's exit code when the downloader
exits 0, returns the downloader's non-zero code and forwards its captured
error stream otherwise, and reports a missing downloader or shell binary as
exit code 1 with a message naming the tool. -/
theorem c9_run_upgrade (env : UpgradeEnv) :
    (env.curlFound = true → env.bashFound = true → env.curlRc = 0 →
      run_upgrade env = (env.bashRc, [])) ∧
    (env.curlFound = true → env.bashFound = true → env.curlRc ≠ 0 →
      run_upgrade env =
        (env.curlRc, if env.curlStderr ≠ "" then [env.curlStderr] else [])) ∧
    (env.curlFound = false → run_upgrade env = (1, ["Upgrade requires curl"])) ∧
    (env.curlFound = true → env.bashFound = false →
      run_upgrade env = (1, ["Upgrade requires bash"])) := by
  refine ⟨?_, ?_, ?_, ?_⟩
  · intro hc hb hrc
    simp [run_upgrade, hc, hb, hrc]
  · intro hc hb hrc
    simp [run_upgrade, hc, hb, hrc]
  · intro hc
    simp [run_upgrade, hc]
  · intro hc hb
    simp [run_upgrade, hc, hb]

/-- Witness for C9: the four cases at concrete process behaviours. -/
theorem c9_run_upgrade_witness :
    run_upgrade ⟨true, true, 0, 7, ""⟩ = (7, []) ∧
    run_upgrade ⟨true, true, 22, 0, "curl: (22) error"⟩ = (22, ["curl: (22) error"]) ∧
    run_upgrade ⟨false, true, 0, 0, ""⟩ = (1, ["Upgrade requires curl"]) ∧
    run_upgrade ⟨true, false, 0, 0, ""⟩ = (1, ["Upgrade requires bash"]) :=
  ⟨(c9_run_upgrade ⟨true, true, 0, 7, ""⟩).1 rfl rfl rfl,
    (c9_run_upgrade ⟨true, true, 22, 0, "curl: (22) error"⟩).2.1 rfl rfl (by decide),
    (c9_run_upgrade ⟨false, true, 0, 0, ""⟩).2.2.1 rfl,
    (c9_run_upgrade ⟨true, false, 0, 0, ""⟩).2.2.2 rfl rfl⟩

theorem composed_no_netCall {x p q : Except String String} {evs : List Event}
    {b : Bool} (m : String)
    (h : (if b = true then (p, [Event.editorInvoked]) else (q, ([] : List Event)))
      = (x, evs)) : Event.netCall m ∉ evs := by
  split at h
  · cases h
    simp
  · cases h
    simp

/-- C6: token resolution returns the token unchanged iff `SLACK_TOKEN` is
present (set and non-empty) and starts with `xoxp-` or `xoxc-`; a token
starting with `xoxb-` is rejected with a fatal error, and with such a token no
invocation of the program performs any network call; a missing or
otherwise-prefixed token is also fatal (resolution never succeeds there, by
the iff). -/
theorem c6_resolve_token (envTok : Option String) (t : String) :
    (resolve_token envTok = .ok t ↔
      (envTok = some t ∧
        (pyStartsWith t "xoxp-" = true ∨ pyStartsWith t "xoxc-" = true))) ∧
    (pyStartsWith t "xoxb-" = true →
      resolve_token (some t) = .error "Bot tokens are not supported. Use a user token.") ∧
    (∀ (args : Args) (env : Env), env.slackToken = some t →
      pyStartsWith t "xoxb-" = true →
      ∀ m, Event.netCall m ∉ (mainRun args env).2) := by
  have hbot : pyStartsWith t "xoxb-" = true →
      resolve_token (some t) = .error "Bot tokens are not supported. Use a user token." := by
    intro hb
    have ht : t ≠ "" := pyStartsWith_ne_empty hb (by decide)
    rw [resolve_token_some t ht]
    simp [hb]
  refine ⟨?_, hbot, ?_⟩
  · constructor
    · intro h
      cases envTok with
      | none => simp [resolve_token, get_env] at h
      | some s =>
        by_cases hs : s = ""
        · subst hs
          simp [resolve_token, get_env] at h
        · rw [resolve_token_some s hs] at h
          by_cases hb : pyStartsWith s "xoxb-" = true
          · simp [hb] at h
          · by_cases hp : (pyStartsWith s "xoxp-" || pyStartsWith s "xoxc-") = true
            · simp [hb, hp] at h
              subst h
              exact ⟨rfl, by simpa using hp⟩
            · simp [hb, hp] at h
    · rintro ⟨he, hstart⟩
      subst he
      have ht : t ≠ "" := by
        rcases hstart with h | h
        · exact pyStartsWith_ne_empty h (by decide)
        · exact pyStartsWith_ne_empty h (by decide)
      have hb : pyStartsWith t "xoxb-" = false := by
        cases hx : pyStartsWith t "xoxb-" with
        | false => rfl
        | true =>
          rcases hstart with h | h
          · have := isPrefixOfList_eq_of_length "xoxp-".data "xoxb-".data t.data
              (by decide) h hx
            exact absurd this (by decide)
          · have := isPrefixOfList_eq_of_length "xoxc-".data "xoxb-".data t.data
              (by decide) h hx
            exact absurd this (by decide)
      rw [resolve_token_some t ht]
      rcases hstart with h | h <;> simp [hb, h]
  · intro args env hTok hb m
    have hrt : resolve_token env.slackToken =
        .error "Bot tokens are not supported. Use a user token." := by
      rw [hTok]
      exact hbot hb
    simp only [mainRun, hrt]
    repeat' split
    all_goals try simp_all
    all_goals exact composed_no_netCall m (by assumption)

/-- Witness for C6: an accepted `xoxp-` token round-trips; `"xoxb-123"` is
rejected, and a send invocation carrying it produces no `auth.test` call. -/
theorem c6_resolve_token_witness :
    resolve_token (some "xoxp-abc") = .ok "xoxp-abc" ∧
    resolve_token (some "xoxb-123") =
      .error "Bot tokens are not supported. Use a user token." ∧
    Event.netCall "auth.test" ∉
      (mainRun ⟨some "U1ABC", ["hi"], false, none, false, false⟩
        ⟨some "xoxb-123", .absent, true, "vim", "", none, ⟨true, true, 0, 0, ""⟩,
          "1.0.0", .ok false, fun _ => .ok none, fun _ => .ok none,
          fun _ _ => .ok none⟩).2 :=
  ⟨(c6_resolve_token (some "xoxp-abc") "xoxp-abc").1.mpr ⟨rfl, Or.inl rfl⟩,
    (c6_resolve_token (some "xoxb-123") "xoxb-123").2.1 rfl,
    (c6_resolve_token (some "xoxb-123") "xoxb-123").2.2
      ⟨some "U1ABC", ["hi"], false, none, false, false⟩
      ⟨some "xoxb-123", .absent, true, "vim", "", none, ⟨true, true, 0, 0, ""⟩,
        "1.0.0", .ok false, fun _ => .ok none, fun _ => .ok none,
        fun _ _ => .ok none⟩
      rfl rfl "auth.test"⟩

/-- C10: with the edit flag set and no recipient, the editor runs first and
its (non-empty) text is then discarded: the program prints the usage help and
returns successfully, having read no token and made no network call — the
trace is exactly the editor invocation. -/
theorem c10_edit_without_recipient (env : Env) (cfg : Json)
    (labels : List (String × String))
    (hload : load_config env.configFile = .ok cfg)
    (hnorm : normalize_user_labels (objFields cfg) = .ok labels)
    (hfound : env.editorFound = true)
    (htext : pystrip env.editorRaw ≠ "") :
    mainRun ⟨none, [], true, none, false, false⟩ env =
      (.printedHelp, [.editorInvoked]) := by
  unfold mainRun
  simp [hload, hnorm, read_from_editor, hfound, htext, optTruthy]

/-- Witness for C10: a concrete environment where the editor yields `" hi "`
and the invocation `slack -e` ends at the usage help with only the editor in
the trace. -/
theorem c10_edit_without_recipient_witness :
    load_config FileState.absent = .ok (.obj []) ∧
    normalize_user_labels (objFields (.obj [])) = .ok [] ∧
    pystrip " hi " ≠ "" ∧
    mainRun ⟨none, [], true, none, false, false⟩
        ⟨some "xoxp-a", .absent, true, "vim", " hi ", none, ⟨true, true, 0, 0, ""⟩,
          "1.0.0", .ok false, fun _ => .ok none, fun _ => .ok none,
          fun _ _ => .ok none⟩ =
      (.printedHelp, [.editorInvoked]) :=
  ⟨rfl, rfl, by decide,
    c10_edit_without_recipient
      ⟨some "xoxp-a", .absent, true, "vim", " hi ", none, ⟨true, true, 0, 0, ""⟩,
        "1.0.0", .ok false, fun _ => .ok none, fun _ => .ok none,
        fun _ _ => .ok none⟩
      (.obj []) [] rfl rfl rfl (by decide)⟩

theorem canonLookup_sortJson_obj (fields : List (String × Json))
    (hnodup : (keysOf fields).Nodup) (k : String) :
    canonLookup k (objFields (sortJson (.obj fields))) = canonLookup k fields := by
  have hnodup' : (keysOf (sortFields fields)).Nodup := by
    rw [keysOf_sortFields]
    exact hnodup
  show canonLookup k (List.insertionSort keyLe (sortFields fields)) = _
  unfold canonLookup
  rw [jlookup_perm (List.perm_insertionSort keyLe (sortFields fields)) ?_ k]
  · rw [jlookup_sortFields]
    cases jlookup k fields with
    | none => rfl
    | some v => simp [sortJson_idem]
  · have hperm : (keysOf (List.insertionSort keyLe (sortFields fields))).Perm
        (keysOf (sortFields fields)) :=
      (List.perm_insertionSort keyLe (sortFields fields)).map Prod.fst
    exact hperm.nodup_iff.mpr hnodup'

/-- C8: loading a well-formed config object returns it as parsed, saving it
back preserves every top-level field's content (serialization only reorders
keys: `canonLookup` compares contents in canonical key order), and the
add-label mutation leaves every field other than `user_labels` untouched in
the persisted object. -/
theorem c8_round_trip (fields newFields : List (String × Json)) (k lbl uid : String)
    (hnodup : (keysOf fields).Nodup) (hk : k ≠ "user_labels")
    (hadd : addLabelFields fields lbl uid = .ok newFields) :
    load_config (.content (.obj fields)) = .ok (.obj fields) ∧
    canonLookup k (objFields (sortJson (.obj fields))) = canonLookup k fields ∧
    canonLookup k (objFields (sortJson (.obj newFields))) = canonLookup k fields := by
  refine ⟨rfl, canonLookup_sortJson_obj fields hnodup k, ?_⟩
  unfold addLabelFields at hadd
  cases hnorm : normalize_user_labels fields with
  | error e =>
    rw [hnorm] at hadd
    exact absurd hadd (by simp)
  | ok labels =>
    rw [hnorm] at hadd
    simp only [Except.ok.injEq] at hadd
    subst hadd
    have hnodup₂ : (keysOf (dictInsert "user_labels"
        (labelsJson (dictInsert lbl uid labels)) fields)).Nodup :=
      keysOf_dictInsert_nodup _ _ hnodup
    rw [canonLookup_sortJson_obj _ hnodup₂ k]
    unfold canonLookup
    rw [jlookup_dictInsert, if_neg (fun h => hk h.symm)]

/-- Witness for C8: a config with an unknown field `"alpha"` keeps that
field's content across load, save, and the add-label path. -/
theorem c8_round_trip_witness :
    (keysOf [("user_labels", Json.obj [("a", Json.str "U1")]),
      ("alpha", Json.num 1)]).Nodup ∧
    "alpha" ≠ "user_labels" ∧
    addLabelFields
        [("user_labels", Json.obj [("a", Json.str "U1")]), ("alpha", Json.num 1)]
        "bob" "U2" =
      .ok [("user_labels", Json.obj [("a", Json.str "U1"), ("bob", Json.str "U2")]),
        ("alpha", Json.num 1)] ∧
    canonLookup "alpha"
        (objFields (sortJson (.obj [("user_labels",
          Json.obj [("a", Json.str "U1"), ("bob", Json.str "U2")]),
          ("alpha", Json.num 1)]))) =
      canonLookup "alpha"
        [("user_labels", Json.obj [("a", Json.str "U1")]), ("alpha", Json.num 1)] :=
  ⟨by decide, by decide, rfl,
    (c8_round_trip
      [("user_labels", Json.obj [("a", Json.str "U1")]), ("alpha", Json.num 1)]
      [("user_labels", Json.obj [("a", Json.str "U1"), ("bob", Json.str "U2")]),
        ("alpha", Json.num 1)]
      "alpha" "bob" "U2" (by decide) (by decide) rfl).2.2⟩

end Slack
